import Mathlib

/-
Shallow embedding of the payment-pipeline core of the hours-worked tracker.

Times are integer Unix milliseconds (a JS `Date` compares by its millisecond
value).  Monetary amounts are rationals.  A JS value on which `parseFloat`
yields `NaN` (non-numeric input) is modelled as `Option.none`, so that
`parseFloat(x) || 0` becomes `parseFloatOr0`.
-/

/-- Models the JS idiom `parseFloat(x) || 0`: a malformed (NaN) amount
becomes 0.  (`parseFloat("0") || 0` is also 0, so mapping a parsed 0 to
itself is faithful.) -/
def parseFloatOr0 (x : Option ℚ) : ℚ := x.getD 0

/-- Constant `CONFIG.TASK_PAYOUT_HOURS` (src/js/config.js). -/
def TASK_PAYOUT_HOURS : Int := 72

/-- Constant `CONFIG.PROJECT_PAYOUT_HOURS` (src/js/config.js). -/
def PROJECT_PAYOUT_HOURS : Int := 187

/-- Constant `Pipeline.DA_PAYOUT_COOLDOWN_HOURS`. -/
def DA_PAYOUT_COOLDOWN_HOURS : Int := 72

/-- Milliseconds in one hour, `60 * 60 * 1000`. -/
def msPerHour : Int := 3600000

/-- A work session as consumed by `Pipeline.calculateTotals`:
`earnings` is the raw earnings field (none = non-numeric), `submittedAt`
the optional submission timestamp, `type` the work-kind string. -/
structure WorkSession where
  earnings : Option ℚ
  submittedAt : Option Int
  type : String
deriving DecidableEq, Repr

/-- An email-derived payout event (`EmailPayouts` record): tagged by the
`source` string (`"dataannotation"`, `"paypal_transfer"`,
`"chase_deposit"`, ...). -/
structure PayoutEvent where
  source : String
  amount : Option ℚ
  receivedAt : Option Int
  estimatedArrival : Option Int
deriving DecidableEq, Repr

/-- The five stage totals returned by `Pipeline.calculateTotals`. -/
structure PipelineTotals where
  submitted : ℚ
  pending_payout : ℚ
  paid_out : ℚ
  transferring : ℚ
  in_bank : ℚ
deriving DecidableEq, Repr

/-- One iteration of the `workSessions.forEach` loop in
`Pipeline.calculateTotals`; the accumulator is
`(sessionsStillWaiting, sessionsPastWaiting)`. -/
def sessionStep (now : Int) (acc : ℚ × ℚ) (s : WorkSession) : ℚ × ℚ :=
  let earnings := parseFloatOr0 s.earnings
  if earnings ≤ 0 then acc
  else
    match s.submittedAt with
    | none => (acc.1, acc.2 + earnings)
    | some submittedAt =>
      let payoutHours := if s.type = "task" then TASK_PAYOUT_HOURS else PROJECT_PAYOUT_HOURS
      let payoutExpected := submittedAt + payoutHours * msPerHour
      if now < payoutExpected then (acc.1 + earnings, acc.2)
      else (acc.1, acc.2 + earnings)

/-- One iteration of the `emailPayouts.forEach` loop in
`Pipeline.calculateTotals`; the accumulator is
`(daTotal, transfersCompleted, transfersInProgress)`. -/
def emailStep (now : Int) (acc : ℚ × ℚ × ℚ) (e : PayoutEvent) : ℚ × ℚ × ℚ :=
  let amount := parseFloatOr0 e.amount
  if amount ≤ 0 then acc
  else if e.source = "dataannotation" then (acc.1 + amount, acc.2.1, acc.2.2)
  else if e.source = "paypal_transfer" then
    match e.estimatedArrival with
    | some arr =>
      if arr ≤ now then (acc.1, acc.2.1 + amount, acc.2.2)
      else (acc.1, acc.2.1, acc.2.2 + amount)
    | none => (acc.1, acc.2.1, acc.2.2 + amount)
  else acc

/-- Embedding of `Pipeline.calculateTotals(workSessions, emailPayouts)`; the clock
`new Date()` is passed explicitly as `now`. -/
def calculateTotals (now : Int) (workSessions : List WorkSession)
    (emailPayouts : List PayoutEvent) : PipelineTotals :=
  let sw := workSessions.foldl (sessionStep now) (0, 0)
  let em := emailPayouts.foldl (emailStep now) (0, 0, 0)
  { submitted := sw.1
    pending_payout := max 0 (sw.2 - em.1)
    paid_out := max 0 (em.1 - em.2.1 - em.2.2)
    transferring := em.2.2
    in_bank := em.2.1 }

/-- Sum of the five stage totals. -/
def sumTotals (t : PipelineTotals) : ℚ :=
  t.submitted + t.pending_payout + t.paid_out + t.transferring + t.in_bank

/-- Result record of `Pipeline.getPayoutCooldown`. -/
structure CooldownStatus where
  available : Bool
  text : String
  color : String
deriving DecidableEq, Repr

/-- The `receivedAt` timestamps of `dataannotation` events that carry one
(the code filters `e.source === 'dataannotation' && e.receivedAt`). -/
def daReceivedTimes (emailPayouts : List PayoutEvent) : List Int :=
  emailPayouts.filterMap
    (fun e => if e.source = "dataannotation" then e.receivedAt else none)

/-- Maximum of a list of timestamps, none for the empty list.  The code
sorts ISO-8601 strings descending with `localeCompare` and takes the head;
on ISO timestamps lexicographic order is chronological order, so the head
of the descending sort is the maximum. -/
def listMax? (l : List Int) : Option Int :=
  l.foldl (fun acc t => some (match acc with | none => t | some m => max m t)) none

/-- Embedding of `Pipeline.getPayoutCooldown(emailPayouts)` with the clock passed
explicitly as `now`. -/
def getPayoutCooldown (now : Int) (emailPayouts : List PayoutEvent) : CooldownStatus :=
  match listMax? (daReceivedTimes emailPayouts) with
  | none => ⟨true, "Available!", "text-emerald-400"⟩
  | some lastPayout =>
    let nextAvailable := lastPayout + DA_PAYOUT_COOLDOWN_HOURS * msPerHour
    let remainingMs := nextAvailable - now
    if remainingMs ≤ 0 then ⟨true, "Available!", "text-emerald-400"⟩
    else
      let totalMinutes := remainingMs / 60000
      let days := totalMinutes / 1440
      let hours := (totalMinutes % 1440) / 60
      let minutes := totalMinutes % 60
      let text :=
        if 0 < days then s!"{days}d {hours}h {minutes}m"
        else if 0 < hours then s!"{hours}h {minutes}m"
        else s!"{minutes}m"
      let remainingHours : ℚ := (remainingMs : ℚ) / (1000 * 60 * 60)
      let color :=
        if 48 < remainingHours then "text-red-400"
        else if 24 < remainingHours then "text-orange-400"
        else "text-yellow-400"
      ⟨false, text, color⟩

/-- A row of the `EmailPayouts` sheet as read by
`matchChaseDepositsToTransfers` (only the columns it touches). -/
structure EmailRow where
  source : String
  amount : Option ℚ
  estimatedArrival : Option Int
deriving DecidableEq, Repr

/-- A parsed Chase-deposit email (`parseChaseDepositEmail` guarantees a
numeric amount). -/
structure ChaseDeposit where
  amount : ℚ
  receivedAt : Int
deriving DecidableEq, Repr

/-- A row is an in-progress transfer for the matcher exactly when the
loop does not `continue` over it: `source === 'paypal_transfer'`, an
`estimatedArrival` is present, and `now < estimatedArrival`. -/
def rowInProgress (now : Int) (r : EmailRow) : Bool :=
  r.source = "paypal_transfer" &&
    match r.estimatedArrival with
    | some arr => decide (now < arr)
    | none => false

/-- Embedding of `depositAmounts.indexOf(transferAmount)` followed by `splice` at the
found index: returns the first deposit whose amount equals `amt` together
with the list with that deposit removed. -/
def findMatch (amt : ℚ) : List ChaseDeposit → Option (ChaseDeposit × List ChaseDeposit)
  | [] => none
  | d :: ds =>
    if d.amount = amt then some (d, ds)
    else
      match findMatch amt ds with
      | none => none
      | some (m, rest) => some (m, d :: rest)

/-- The row loop of `matchChaseDepositsToTransfers`: walks the sheet rows
carrying the remaining deposit batch; returns the updated rows, the
leftover deposits, and the number of `setValue` mutations performed.
The `break` once the batch is empty is not modelled separately: with an
empty batch every remaining iteration is a no-op, so the result is the
same. -/
def matchLoop (now : Int) : List EmailRow → List ChaseDeposit →
    List EmailRow × List ChaseDeposit × Nat
  | [], ds => ([], ds, 0)
  | r :: rs, ds =>
    if rowInProgress now r then
      match findMatch (parseFloatOr0 r.amount) ds with
      | some (d, ds') =>
        let rec' := matchLoop now rs ds'
        ({ r with estimatedArrival := some d.receivedAt } :: rec'.1, rec'.2.1, rec'.2.2 + 1)
      | none =>
        let rec' := matchLoop now rs ds
        (r :: rec'.1, rec'.2.1, rec'.2.2)
    else
      let rec' := matchLoop now rs ds
      (r :: rec'.1, rec'.2.1, rec'.2.2)

/-- Embedding of `matchChaseDepositsToTransfers(emailSheet, chaseDeposits)` with the
clock passed explicitly; the sheet is the row list, and the returned
triple is (updated rows, leftover deposits, number of mutations). -/
def matchChaseDepositsToTransfers (now : Int) (rows : List EmailRow)
    (chaseDeposits : List ChaseDeposit) : List EmailRow × List ChaseDeposit × Nat :=
  if chaseDeposits.isEmpty then (rows, chaseDeposits, 0)
  else matchLoop now rows chaseDeposits

/-- The `getDay()` weekday test used by `addBusinessDays`: days are counted
as integer day numbers with day 0 a Sunday, so `d % 7 = 0` is Sunday and
`d % 7 = 6` is Saturday. -/
def isWeekday (d : Nat) : Bool := d % 7 ≠ 0 && d % 7 ≠ 6

/-- Embedding of `addBusinessDays(date, days)`: advance one calendar day at a time,
counting a day only when it is neither Saturday nor Sunday, until `days`
such days have been counted. -/
def addBusinessDays (d : Nat) (days : Nat) : Nat :=
  if days = 0 then d
  else
    let d' := d + 1
    if isWeekday d' then addBusinessDays d' (days - 1)
    else addBusinessDays d' days
termination_by 3 * days + (if d % 7 = 5 then 2 else if d % 7 = 6 then 1 else 0)
decreasing_by
  all_goals simp_all [isWeekday]
  all_goals split_ifs <;> omega

/-- Number of weekdays `k` with `d < k ≤ e`. -/
def countWeekdays (d e : Nat) : Nat :=
  ((List.range' (d + 1) (e - d)).filter isWeekday).length

/-! ### Helper lemmas about the stage-calculator folds -/

lemma sessionStep_mono (now : Int) (acc : ℚ × ℚ) (s : WorkSession) :
    acc.1 ≤ (sessionStep now acc s).1 ∧ acc.2 ≤ (sessionStep now acc s).2 := by
  unfold sessionStep
  rcases s.submittedAt with _ | t
  · dsimp only
    split_ifs with h0 <;> constructor <;> simp <;> linarith [not_le.mp h0]
  · dsimp only
    split_ifs with h0 h1 <;> constructor <;> simp <;> linarith [not_le.mp h0]

lemma foldl_sessionStep_ge (now : Int) :
    ∀ (l : List WorkSession) (acc : ℚ × ℚ),
      acc.1 ≤ (l.foldl (sessionStep now) acc).1 ∧ acc.2 ≤ (l.foldl (sessionStep now) acc).2 := by
  intro l
  induction l with
  | nil => intro acc; exact ⟨le_refl _, le_refl _⟩
  | cons s rest ih =>
    intro acc
    have h1 := sessionStep_mono now acc s
    have h2 := ih (sessionStep now acc s)
    exact ⟨h1.1.trans h2.1, h1.2.trans h2.2⟩

lemma emailStep_mono (now : Int) (acc : ℚ × ℚ × ℚ) (e : PayoutEvent) :
    acc.1 ≤ (emailStep now acc e).1 ∧ acc.2.1 ≤ (emailStep now acc e).2.1 ∧
      acc.2.2 ≤ (emailStep now acc e).2.2 := by
  unfold emailStep
  rcases e.estimatedArrival with _ | a
  · dsimp only
    split_ifs with h0 h1 h2 <;> refine ⟨?_, ?_, ?_⟩ <;> simp <;> linarith [not_le.mp h0]
  · dsimp only
    split_ifs with h0 h1 h2 h3 <;> refine ⟨?_, ?_, ?_⟩ <;> simp <;> linarith [not_le.mp h0]

lemma foldl_emailStep_ge (now : Int) :
    ∀ (l : List PayoutEvent) (acc : ℚ × ℚ × ℚ),
      acc.1 ≤ (l.foldl (emailStep now) acc).1 ∧
        acc.2.1 ≤ (l.foldl (emailStep now) acc).2.1 ∧
        acc.2.2 ≤ (l.foldl (emailStep now) acc).2.2 := by
  intro l
  induction l with
  | nil => intro acc; exact ⟨le_refl _, le_refl _, le_refl _⟩
  | cons e rest ih =>
    intro acc
    have h1 := emailStep_mono now acc e
    have h2 := ih (emailStep now acc e)
    exact ⟨h1.1.trans h2.1, h1.2.1.trans h2.2.1, h1.2.2.trans h2.2.2⟩

lemma emailStep_other (now : Int) (acc : ℚ × ℚ × ℚ) (e : PayoutEvent)
    (h1 : e.source ≠ "dataannotation") (h2 : e.source ≠ "paypal_transfer") :
    emailStep now acc e = acc := by
  unfold emailStep
  simp [h1, h2]

lemma sessionStep_malformed (now : Int) (acc : ℚ × ℚ) (s : WorkSession)
    (h : s.earnings = none) : sessionStep now acc s = acc := by
  unfold sessionStep
  simp [h, parseFloatOr0]

lemma emailStep_malformed (now : Int) (acc : ℚ × ℚ × ℚ) (e : PayoutEvent)
    (h : e.amount = none) : emailStep now acc e = acc := by
  unfold emailStep
  simp [h, parseFloatOr0]

lemma calculateTotals_nonneg (now : Int) (ss : List WorkSession) (es : List PayoutEvent) :
    0 ≤ (calculateTotals now ss es).submitted ∧
      0 ≤ (calculateTotals now ss es).pending_payout ∧
      0 ≤ (calculateTotals now ss es).paid_out ∧
      0 ≤ (calculateTotals now ss es).transferring ∧
      0 ≤ (calculateTotals now ss es).in_bank := by
  have hs := foldl_sessionStep_ge now ss (0, 0)
  have he := foldl_emailStep_ge now es (0, 0, 0)
  unfold calculateTotals
  exact ⟨hs.1, le_max_left 0 _, le_max_left 0 _, he.2.2, he.2.1⟩

/-- C3: every one of the five stage totals returned by `calculateTotals`
is non-negative, for every input list of sessions and events and every
value of `now`. -/
theorem c3_totals_nonneg (now : Int) (ss : List WorkSession) (es : List PayoutEvent) :
    0 ≤ (calculateTotals now ss es).submitted ∧
      0 ≤ (calculateTotals now ss es).pending_payout ∧
      0 ≤ (calculateTotals now ss es).paid_out ∧
      0 ≤ (calculateTotals now ss es).transferring ∧
      0 ≤ (calculateTotals now ss es).in_bank :=
  calculateTotals_nonneg now ss es

/-- C10: appending a payout event whose source is neither
`"dataannotation"` nor `"paypal_transfer"` (in particular any
`"chase_deposit"` bank event, of any amount) leaves all five totals of
`calculateTotals` unchanged. -/
theorem c10_deposits_invisible (now : Int) (ss : List WorkSession)
    (es : List PayoutEvent) (e : PayoutEvent)
    (h1 : e.source ≠ "dataannotation") (h2 : e.source ≠ "paypal_transfer") :
    calculateTotals now ss (es ++ [e]) = calculateTotals now ss es := by
  unfold calculateTotals
  rw [List.foldl_append, List.foldl_cons, List.foldl_nil, emailStep_other now _ e h1 h2]

/-- C10 witness: a concrete chase deposit of amount 50 appended to a
concrete event list leaves the totals unchanged. -/
theorem c10_deposits_invisible_witness :
    calculateTotals 0 [⟨some 100, some (-263000000), "task"⟩]
        ([⟨"dataannotation", some 100, some 1, none⟩] ++ [⟨"chase_deposit", some 50, some 2, none⟩]) =
      calculateTotals 0 [⟨some 100, some (-263000000), "task"⟩]
        [⟨"dataannotation", some 100, some 1, none⟩] :=
  c10_deposits_invisible 0 _ _ _ (by simp) (by simp)

/-- C6: the stage calculator degrades totally: a session with a
malformed (non-numeric) earnings field, or an event with a malformed
amount field, contributes nothing to any total (dropping it leaves the
result unchanged), and the returned totals are always clamped
non-negative.  The embedding is a total function, so no input can make
it throw. -/
theorem c6_malformed_degradation :
    (∀ (now : Int) (pre : List WorkSession) (s : WorkSession) (post : List WorkSession)
        (es : List PayoutEvent), s.earnings = none →
        calculateTotals now (pre ++ s :: post) es = calculateTotals now (pre ++ post) es) ∧
    (∀ (now : Int) (ss : List WorkSession) (pre : List PayoutEvent) (e : PayoutEvent)
        (post : List PayoutEvent), e.amount = none →
        calculateTotals now ss (pre ++ e :: post) = calculateTotals now ss (pre ++ post)) ∧
    (∀ (now : Int) (ss : List WorkSession) (es : List PayoutEvent),
        0 ≤ (calculateTotals now ss es).submitted ∧
        0 ≤ (calculateTotals now ss es).pending_payout ∧
        0 ≤ (calculateTotals now ss es).paid_out ∧
        0 ≤ (calculateTotals now ss es).transferring ∧
        0 ≤ (calculateTotals now ss es).in_bank) := by
  refine ⟨?_, ?_, fun now ss es => calculateTotals_nonneg now ss es⟩
  · intro now pre s post es h
    unfold calculateTotals
    rw [List.foldl_append, List.foldl_cons, sessionStep_malformed now _ s h, ← List.foldl_append]
  · intro now ss pre e post h
    unfold calculateTotals
    rw [List.foldl_append, List.foldl_cons, emailStep_malformed now _ e h, ← List.foldl_append]

/-- C6 witness: a session with a malformed earnings field contributes
nothing at a concrete input. -/
theorem c6_malformed_degradation_witness :
    calculateTotals 0 ([] ++ (⟨none, some 1, "task"⟩ : WorkSession) :: [⟨some 7, none, "task"⟩]) [] =
      calculateTotals 0 ([] ++ [⟨some 7, none, "task"⟩]) [] :=
  c6_malformed_degradation.1 0 [] ⟨none, some 1, "task"⟩ [⟨some 7, none, "task"⟩] [] rfl

/-- C1: for a single non-overlapping payout cycle (one session with
earnings `E > 0`, then one `dataannotation` event of amount `E`, then
one `paypal_transfer` event of amount `E`, optionally one matched
deposit), the five totals of `calculateTotals` sum to exactly `E` at
every point of the cycle: still-waiting, past-waiting, after the DA
event, while transferring, and after arrival (with or without the
deposit event). -/
theorem c1_single_cycle_conservation (E : ℚ) (hE : 0 < E)
    (now sub rcvDA rcvTr arr dep : Int) (ty : String) :
    (now < sub + (if ty = "task" then TASK_PAYOUT_HOURS else PROJECT_PAYOUT_HOURS) * msPerHour →
      sumTotals (calculateTotals now [⟨some E, some sub, ty⟩] []) = E) ∧
    (sub + (if ty = "task" then TASK_PAYOUT_HOURS else PROJECT_PAYOUT_HOURS) * msPerHour ≤ now →
      sumTotals (calculateTotals now [⟨some E, some sub, ty⟩] []) = E) ∧
    (sub + (if ty = "task" then TASK_PAYOUT_HOURS else PROJECT_PAYOUT_HOURS) * msPerHour ≤ now →
      sumTotals (calculateTotals now [⟨some E, some sub, ty⟩]
        [⟨"dataannotation", some E, some rcvDA, none⟩]) = E) ∧
    (sub + (if ty = "task" then TASK_PAYOUT_HOURS else PROJECT_PAYOUT_HOURS) * msPerHour ≤ now →
      now < arr →
      sumTotals (calculateTotals now [⟨some E, some sub, ty⟩]
        [⟨"dataannotation", some E, some rcvDA, none⟩,
         ⟨"paypal_transfer", some E, some rcvTr, some arr⟩]) = E) ∧
    (sub + (if ty = "task" then TASK_PAYOUT_HOURS else PROJECT_PAYOUT_HOURS) * msPerHour ≤ now →
      arr ≤ now →
      sumTotals (calculateTotals now [⟨some E, some sub, ty⟩]
        [⟨"dataannotation", some E, some rcvDA, none⟩,
         ⟨"paypal_transfer", some E, some rcvTr, some arr⟩]) = E) ∧
    (sub + (if ty = "task" then TASK_PAYOUT_HOURS else PROJECT_PAYOUT_HOURS) * msPerHour ≤ now →
      arr ≤ now →
      sumTotals (calculateTotals now [⟨some E, some sub, ty⟩]
        [⟨"dataannotation", some E, some rcvDA, none⟩,
         ⟨"paypal_transfer", some E, some rcvTr, some arr⟩,
         ⟨"chase_deposit", some E, some dep, none⟩]) = E) := by
  have hE' : ¬ E ≤ 0 := not_le.mpr hE
  refine ⟨?_, ?_, ?_, ?_, ?_, ?_⟩ <;> intro h1
  · simp only [calculateTotals, sumTotals, List.foldl_cons, List.foldl_nil,
      sessionStep, emailStep, parseFloatOr0, Option.getD]
    set P : Int := sub +
      (if ty = "task" then TASK_PAYOUT_HOURS else PROJECT_PAYOUT_HOURS) * msPerHour with hP
    simp [hE', h1, max_eq_right hE.le]
  · simp only [calculateTotals, sumTotals, List.foldl_cons, List.foldl_nil,
      sessionStep, emailStep, parseFloatOr0, Option.getD]
    set P : Int := sub +
      (if ty = "task" then TASK_PAYOUT_HOURS else PROJECT_PAYOUT_HOURS) * msPerHour with hP
    simp [hE', not_lt.mpr h1, max_eq_right hE.le]
  · simp only [calculateTotals, sumTotals, List.foldl_cons, List.foldl_nil,
      sessionStep, emailStep, parseFloatOr0, Option.getD]
    set P : Int := sub +
      (if ty = "task" then TASK_PAYOUT_HOURS else PROJECT_PAYOUT_HOURS) * msPerHour with hP
    simp [hE', not_lt.mpr h1, max_eq_right hE.le, sub_self]
  · intro h2
    simp only [calculateTotals, sumTotals, List.foldl_cons, List.foldl_nil,
      sessionStep, emailStep, parseFloatOr0, Option.getD]
    set P : Int := sub +
      (if ty = "task" then TASK_PAYOUT_HOURS else PROJECT_PAYOUT_HOURS) * msPerHour with hP
    simp [hE', not_lt.mpr h1, not_le.mpr h2, max_eq_right hE.le, sub_self]
  · intro h2
    simp only [calculateTotals, sumTotals, List.foldl_cons, List.foldl_nil,
      sessionStep, emailStep, parseFloatOr0, Option.getD]
    set P : Int := sub +
      (if ty = "task" then TASK_PAYOUT_HOURS else PROJECT_PAYOUT_HOURS) * msPerHour with hP
    simp [hE', not_lt.mpr h1, h2, max_eq_right hE.le, sub_self]
  · intro h2
    simp only [calculateTotals, sumTotals, List.foldl_cons, List.foldl_nil,
      sessionStep, emailStep, parseFloatOr0, Option.getD]
    set P : Int := sub +
      (if ty = "task" then TASK_PAYOUT_HOURS else PROJECT_PAYOUT_HOURS) * msPerHour with hP
    simp [hE', not_lt.mpr h1, h2, max_eq_right hE.le, sub_self]

/-- C1 witness: the conservation law applied at a concrete cycle with
`E = 100` (still-waiting point, transferring point, and the arrived
point with a matched deposit event present). -/
theorem c1_single_cycle_conservation_witness :
    sumTotals (calculateTotals 0 [⟨some 100, some 0, "task"⟩] []) = 100 ∧
    sumTotals (calculateTotals 0 [⟨some 100, some (-263000000), "task"⟩]
      [⟨"dataannotation", some 100, some 1, none⟩,
       ⟨"paypal_transfer", some 100, some 2, some 5⟩]) = 100 ∧
    sumTotals (calculateTotals 0 [⟨some 100, some (-263000000), "task"⟩]
      [⟨"dataannotation", some 100, some 1, none⟩,
       ⟨"paypal_transfer", some 100, some 2, some (-5)⟩,
       ⟨"chase_deposit", some 100, some 3, none⟩]) = 100 :=
  ⟨(c1_single_cycle_conservation 100 (by norm_num) 0 0 1 2 5 3 "task").1
      (by simp [TASK_PAYOUT_HOURS, msPerHour]),
   (c1_single_cycle_conservation 100 (by norm_num) 0 (-263000000) 1 2 5 3 "task").2.2.2.1
      (by simp [TASK_PAYOUT_HOURS, msPerHour]) (by norm_num),
   (c1_single_cycle_conservation 100 (by norm_num) 0 (-263000000) 1 2 (-5) 3 "task").2.2.2.2.2
      (by simp [TASK_PAYOUT_HOURS, msPerHour]) (by norm_num)⟩

/-! ### Helper lemmas about the cooldown maximum -/

lemma listMax?_cons (x : Int) (xs : List Int) :
    listMax? (x :: xs) = some (xs.foldl max x) := by
  show (x :: xs).foldl _ none = _
  rw [List.foldl_cons]
  induction xs generalizing x with
  | nil => rfl
  | cons y ys ih => exact (ih (max x y))

lemma foldl_max_bound : ∀ (xs : List Int) (a : Int),
    a ≤ xs.foldl max a ∧ ∀ t ∈ xs, t ≤ xs.foldl max a := by
  intro xs
  induction xs with
  | nil => intro a; exact ⟨le_refl _, by simp⟩
  | cons x rest ih =>
    intro a
    have h := ih (max a x)
    refine ⟨(le_max_left a x).trans h.1, ?_⟩
    intro t ht
    rcases List.mem_cons.mp ht with h1 | h1
    · exact h1 ▸ (le_max_right a x).trans h.1
    · exact h.2 t h1

lemma foldl_max_mem : ∀ (xs : List Int) (a : Int),
    xs.foldl max a = a ∨ xs.foldl max a ∈ xs := by
  intro xs
  induction xs with
  | nil => intro a; exact Or.inl rfl
  | cons x rest ih =>
    intro a
    rw [List.foldl_cons]
    rcases ih (max a x) with h | h
    · rcases max_choice a x with h' | h'
      · exact Or.inl (h.trans h')
      · exact Or.inr (List.mem_cons.mpr (Or.inl (h.trans h')))
    · exact Or.inr (List.mem_cons.mpr (Or.inr h))

/-- C9: `getPayoutCooldown` reports available exactly when no
`dataannotation` event (with a `receivedAt`) exists, or `now` is at or
past the most recent such event's `receivedAt` plus the 72-hour
cooldown; and (second conjunct) a `dataannotation` event received
exactly 72 hours and one second ago yields available. -/
theorem c9_cooldown_availability :
    (∀ (now : Int) (events : List PayoutEvent),
      (getPayoutCooldown now events).available = true ↔
        daReceivedTimes events = [] ∨
          ∃ m, m ∈ daReceivedTimes events ∧ (∀ t ∈ daReceivedTimes events, t ≤ m) ∧
            m + DA_PAYOUT_COOLDOWN_HOURS * msPerHour ≤ now) ∧
    (∀ now : Int,
      (getPayoutCooldown now
        [⟨"dataannotation", some 1, some (now - 72 * msPerHour - 1000), none⟩]).available = true) := by
  constructor
  · intro now events
    unfold getPayoutCooldown
    rcases hl : daReceivedTimes events with _ | ⟨x, xs⟩
    · simp [listMax?]
    · rw [listMax?_cons]
      set m := xs.foldl max x with hm
      have hmem : m ∈ x :: xs := by
        rcases foldl_max_mem xs x with h | h
        · exact h ▸ List.mem_cons_self x xs
        · exact List.mem_cons_of_mem x h
      have hbd : ∀ t ∈ x :: xs, t ≤ m := by
        intro t ht
        rcases List.mem_cons.mp ht with h | h
        · exact h ▸ (foldl_max_bound xs x).1
        · exact (foldl_max_bound xs x).2 t h
      dsimp only
      split_ifs with h
      · simp only [true_iff]
        exact Or.inr ⟨m, hmem, hbd, by linarith [sub_nonpos.mp h]⟩
      · simp only [Bool.false_eq_true, false_iff]
        push_neg
        refine ⟨by simp, ?_⟩
        intro m' hmem' hbd'
        have h1 : m' ≤ m := hbd m' hmem'
        have h2 : m ≤ m' := hbd' m hmem
        have : m' = m := le_antisymm h1 h2
        subst this
        have := not_le.mp h
        omega
  · intro now
    unfold getPayoutCooldown
    have : daReceivedTimes
        [⟨"dataannotation", some 1, some (now - 72 * msPerHour - 1000), none⟩] =
        [now - 72 * msPerHour - 1000] := by
      simp [daReceivedTimes]
    rw [this, listMax?_cons, List.foldl_nil]
    have harith : now - 72 * msPerHour - 1000 + DA_PAYOUT_COOLDOWN_HOURS * msPerHour - now ≤ 0 := by
      unfold DA_PAYOUT_COOLDOWN_HOURS msPerHour
      omega
    dsimp only
    rw [if_pos harith]

/-- C8 counterexample: with exactly 24h remaining (receivedAt =
now − 48h) the code colors the countdown like the under-24h tier
(yellow, shown equal to the 1h-remaining color) and not like the
interior of the 24–48h tier (orange, the 30h-remaining color), so the
claimed partition "24–48h → medium, < 24h → high" fails at the 24h
boundary (and the claim's own example, 71h remaining, is colored red,
the over-48h tier, contradicting the claim calling that tier
low-urgency while calling the 71h example high-urgency). -/
theorem c8_urgency_banding_counterexample :
    (getPayoutCooldown 0 [⟨"dataannotation", some 1, some (-172800000), none⟩]).color =
      (getPayoutCooldown 0 [⟨"dataannotation", some 1, some (-255600000), none⟩]).color ∧
    (getPayoutCooldown 0 [⟨"dataannotation", some 1, some (-172800000), none⟩]).color ≠
      (getPayoutCooldown 0 [⟨"dataannotation", some 1, some (-151200000), none⟩]).color := by
  constructor
  · norm_num [getPayoutCooldown, daReceivedTimes, listMax?, DA_PAYOUT_COOLDOWN_HOURS, msPerHour,
      List.filterMap_cons, List.foldl]
  · norm_num [getPayoutCooldown, daReceivedTimes, listMax?, DA_PAYOUT_COOLDOWN_HOURS, msPerHour,
      List.filterMap_cons, List.foldl]
    decide

/-- C8 amended: when the cooldown is still running, the remaining time
is formatted `{days}d {hours}h {minutes}m` with leading zero units
omitted, and the color is three-tiered on the remaining time with
strict lower boundaries: more than 48h remaining → red, more than 24h
up to 48h → orange, 24h or less → yellow; in particular receivedAt =
now − 1h leaves 71h remaining, formatted "2d 23h 0m", colored red. -/
theorem c8_urgency_banding_amended :
    (∀ (now : Int) (events : List PayoutEvent) (m : Int),
      listMax? (daReceivedTimes events) = some m →
      0 < m + DA_PAYOUT_COOLDOWN_HOURS * msPerHour - now →
      (getPayoutCooldown now events).available = false ∧
      (48 * msPerHour < m + DA_PAYOUT_COOLDOWN_HOURS * msPerHour - now →
        (getPayoutCooldown now events).color = "text-red-400") ∧
      (24 * msPerHour < m + DA_PAYOUT_COOLDOWN_HOURS * msPerHour - now →
        m + DA_PAYOUT_COOLDOWN_HOURS * msPerHour - now ≤ 48 * msPerHour →
        (getPayoutCooldown now events).color = "text-orange-400") ∧
      (m + DA_PAYOUT_COOLDOWN_HOURS * msPerHour - now ≤ 24 * msPerHour →
        (getPayoutCooldown now events).color = "text-yellow-400") ∧
      (86400000 ≤ m + DA_PAYOUT_COOLDOWN_HOURS * msPerHour - now →
        (getPayoutCooldown now events).text =
          s!"{(m + DA_PAYOUT_COOLDOWN_HOURS * msPerHour - now) / 60000 / 1440}d {(m + DA_PAYOUT_COOLDOWN_HOURS * msPerHour - now) / 60000 % 1440 / 60}h {(m + DA_PAYOUT_COOLDOWN_HOURS * msPerHour - now) / 60000 % 60}m") ∧
      (3600000 ≤ m + DA_PAYOUT_COOLDOWN_HOURS * msPerHour - now →
        m + DA_PAYOUT_COOLDOWN_HOURS * msPerHour - now < 86400000 →
        (getPayoutCooldown now events).text =
          s!"{(m + DA_PAYOUT_COOLDOWN_HOURS * msPerHour - now) / 60000 % 1440 / 60}h {(m + DA_PAYOUT_COOLDOWN_HOURS * msPerHour - now) / 60000 % 60}m") ∧
      (m + DA_PAYOUT_COOLDOWN_HOURS * msPerHour - now < 3600000 →
        (getPayoutCooldown now events).text =
          s!"{(m + DA_PAYOUT_COOLDOWN_HOURS * msPerHour - now) / 60000 % 60}m")) ∧
    (∀ now : Int,
      getPayoutCooldown now [⟨"dataannotation", some 1, some (now - msPerHour), none⟩] =
        ⟨false, "2d 23h 0m", "text-red-400"⟩) := by
  constructor
  · intro now events m hm hr
    unfold getPayoutCooldown
    rw [hm]
    dsimp only
    rw [if_neg (not_le.mpr hr)]
    set r : Int := m + DA_PAYOUT_COOLDOWN_HOURS * msPerHour - now with hrdef
    have h48 : (48 < (r : ℚ) / (1000 * 60 * 60)) ↔ 48 * msPerHour < r := by
      rw [lt_div_iff (by norm_num : (0:ℚ) < 1000 * 60 * 60)]
      rw [show ((48:ℚ) * (1000 * 60 * 60)) = ((48 * msPerHour : Int) : ℚ) by
        push_cast [msPerHour]; norm_num]
      exact Int.cast_lt
    have h24 : (24 < (r : ℚ) / (1000 * 60 * 60)) ↔ 24 * msPerHour < r := by
      rw [lt_div_iff (by norm_num : (0:ℚ) < 1000 * 60 * 60)]
      rw [show ((24:ℚ) * (1000 * 60 * 60)) = ((24 * msPerHour : Int) : ℚ) by
        push_cast [msPerHour]; norm_num]
      exact Int.cast_lt
    refine ⟨rfl, ?_, ?_, ?_, ?_, ?_, ?_⟩
    · intro h
      show (if 48 < (r : ℚ) / (1000 * 60 * 60) then "text-red-400"
        else if 24 < (r : ℚ) / (1000 * 60 * 60) then "text-orange-400"
        else "text-yellow-400") = "text-red-400"
      rw [if_pos (h48.mpr h)]
    · intro h1 h2
      show (if 48 < (r : ℚ) / (1000 * 60 * 60) then "text-red-400"
        else if 24 < (r : ℚ) / (1000 * 60 * 60) then "text-orange-400"
        else "text-yellow-400") = "text-orange-400"
      rw [if_neg ((not_congr h48).mpr (not_lt.mpr h2)), if_pos (h24.mpr h1)]
    · intro h1
      show (if 48 < (r : ℚ) / (1000 * 60 * 60) then "text-red-400"
        else if 24 < (r : ℚ) / (1000 * 60 * 60) then "text-orange-400"
        else "text-yellow-400") = "text-yellow-400"
      have h2 : r ≤ 48 * msPerHour := by
        have : (24 : Int) * msPerHour ≤ 48 * msPerHour := by unfold msPerHour; omega
        omega
      rw [if_neg ((not_congr h48).mpr (not_lt.mpr h2)),
        if_neg ((not_congr h24).mpr (not_lt.mpr h1))]
    · intro h
      dsimp only
      rw [if_pos (show (0:Int) < r / 60000 / 1440 by omega)]
    · intro h1 h2
      dsimp only
      rw [if_neg (show ¬ (0:Int) < r / 60000 / 1440 by omega),
        if_pos (show (0:Int) < r / 60000 % 1440 / 60 by omega)]
    · intro h1
      dsimp only
      rw [if_neg (show ¬ (0:Int) < r / 60000 / 1440 by omega),
        if_neg (show ¬ (0:Int) < r / 60000 % 1440 / 60 by omega)]
  · intro now
    unfold getPayoutCooldown
    have h : daReceivedTimes [⟨"dataannotation", some 1, some (now - msPerHour), none⟩] =
        [now - msPerHour] := by
      simp [daReceivedTimes]
    rw [h, listMax?_cons, List.foldl_nil]
    dsimp only
    rw [show now - msPerHour + DA_PAYOUT_COOLDOWN_HOURS * msPerHour - now = 255600000 from by
      unfold DA_PAYOUT_COOLDOWN_HOURS msPerHour; omega]
    rw [if_neg (by norm_num : ¬ (255600000 : Int) ≤ 0)]
    norm_num
    rfl

/-- C8 witness: the amended banding applied at three concrete inputs:
receivedAt = now − 1h (71h remaining: not available, red, "2d 23h 0m"),
remaining 5h 3m (days unit omitted: "5h 3m"), and remaining 10m (days
and hours units omitted: "10m"). -/
theorem c8_urgency_banding_amended_witness :
    (getPayoutCooldown 0 [⟨"dataannotation", some 1, some (-3600000), none⟩]).available = false ∧
    (getPayoutCooldown 0 [⟨"dataannotation", some 1, some (-3600000), none⟩]).color =
      "text-red-400" ∧
    (getPayoutCooldown 0 [⟨"dataannotation", some 1, some (-3600000), none⟩]).text =
      "2d 23h 0m" ∧
    (getPayoutCooldown 0 [⟨"dataannotation", some 1, some (-241020000), none⟩]).text =
      "5h 3m" ∧
    (getPayoutCooldown 0 [⟨"dataannotation", some 1, some (-258600000), none⟩]).text =
      "10m" := by
  have h1 := c8_urgency_banding_amended.1 0
    [⟨"dataannotation", some 1, some (-3600000), none⟩] (-3600000) rfl (by decide)
  have h2 := c8_urgency_banding_amended.1 0
    [⟨"dataannotation", some 1, some (-241020000), none⟩] (-241020000) rfl (by decide)
  have h3 := c8_urgency_banding_amended.1 0
    [⟨"dataannotation", some 1, some (-258600000), none⟩] (-258600000) rfl (by decide)
  exact ⟨h1.1, h1.2.1 (by decide),
    (h1.2.2.2.2.1 (by decide)).trans (by rfl),
    (h2.2.2.2.2.2.1 (by decide) (by decide)).trans (by rfl),
    (h3.2.2.2.2.2.2 (by decide)).trans (by rfl)⟩

/-! ### Helper lemmas about the deposit matcher -/

lemma matchLoop_nil (now : Int) (ds : List ChaseDeposit) :
    matchLoop now [] ds = ([], ds, 0) := rfl

lemma matchLoop_cons_notinprog (now : Int) (r : EmailRow) (rs : List EmailRow)
    (ds : List ChaseDeposit) (h1 : rowInProgress now r = false) :
    matchLoop now (r :: rs) ds =
      (r :: (matchLoop now rs ds).1, (matchLoop now rs ds).2.1, (matchLoop now rs ds).2.2) := by
  simp [matchLoop, h1]

lemma matchLoop_cons_inprog_none (now : Int) (r : EmailRow) (rs : List EmailRow)
    (ds : List ChaseDeposit) (h1 : rowInProgress now r = true)
    (h2 : findMatch (parseFloatOr0 r.amount) ds = none) :
    matchLoop now (r :: rs) ds =
      (r :: (matchLoop now rs ds).1, (matchLoop now rs ds).2.1, (matchLoop now rs ds).2.2) := by
  simp [matchLoop, h1, h2]

lemma matchLoop_cons_inprog_some (now : Int) (r : EmailRow) (rs : List EmailRow)
    (ds ds' : List ChaseDeposit) (d : ChaseDeposit) (h1 : rowInProgress now r = true)
    (h2 : findMatch (parseFloatOr0 r.amount) ds = some (d, ds')) :
    matchLoop now (r :: rs) ds =
      ({ r with estimatedArrival := some d.receivedAt } :: (matchLoop now rs ds').1,
        (matchLoop now rs ds').2.1, (matchLoop now rs ds').2.2 + 1) := by
  simp [matchLoop, h1, h2]

lemma findMatch_eq_none_iff (amt : ℚ) :
    ∀ ds : List ChaseDeposit, findMatch amt ds = none ↔ ∀ d ∈ ds, d.amount ≠ amt := by
  intro ds
  induction ds with
  | nil => simp [findMatch]
  | cons d rest ih =>
    by_cases h : d.amount = amt
    · simp [findMatch, h]
    · rcases h2 : findMatch amt rest with _ | ⟨m, r2⟩
      · simp only [findMatch, if_neg h, h2]
        simp only [List.mem_cons]
        constructor
        · intro _ x hx
          rcases hx with hx | hx
          · exact hx ▸ h
          · exact (ih.mp h2) x hx
        · intro _; trivial
      · simp only [findMatch, if_neg h, h2]
        simp only [List.mem_cons]
        constructor
        · intro hcon; exact absurd hcon (by simp)
        · intro hall
          have := ih.mpr (fun x hx => hall x (Or.inr hx))
          rw [this] at h2
          exact absurd h2 (by simp)

lemma findMatch_some_spec (amt : ℚ) :
    ∀ (ds rest : List ChaseDeposit) (d : ChaseDeposit),
      findMatch amt ds = some (d, rest) →
      d.amount = amt ∧ d ∈ ds ∧ rest.length + 1 = ds.length ∧
        (∀ x ∈ rest, x ∈ ds) ∧ (∀ x ∈ ds, x.amount ≠ amt → x ∈ rest) := by
  intro ds
  induction ds with
  | nil => intro rest d h; exact absurd h (by simp [findMatch])
  | cons y ys ih =>
    intro rest d h
    by_cases hy : y.amount = amt
    · rw [findMatch, if_pos hy] at h
      simp only [Option.some.injEq, Prod.mk.injEq] at h
      obtain ⟨hd, hrest⟩ := h
      subst hd; subst hrest
      refine ⟨hy, List.mem_cons_self y ys, by simp, ?_, ?_⟩
      · intro x hx; exact List.mem_cons_of_mem y hx
      · intro x hx hne
        rcases List.mem_cons.mp hx with h1 | h1
        · exact absurd (h1 ▸ hy) hne
        · exact h1
    · rw [findMatch, if_neg hy] at h
      rcases h2 : findMatch amt ys with _ | ⟨m, r2⟩
      · rw [h2] at h; exact absurd h (by simp)
      · rw [h2] at h
        simp only [Option.some.injEq, Prod.mk.injEq] at h
        obtain ⟨hd, hrest⟩ := h
        subst hd
        obtain ⟨ha, hmem, hlen, hsub, hkeep⟩ := ih r2 m h2
        subst hrest
        refine ⟨ha, List.mem_cons_of_mem y hmem, by simp [← hlen], ?_, ?_⟩
        · intro x hx
          rcases List.mem_cons.mp hx with h1 | h1
          · exact h1 ▸ List.mem_cons_self y ys
          · exact List.mem_cons_of_mem y (hsub x h1)
        · intro x hx hne
          rcases List.mem_cons.mp hx with h1 | h1
          · exact h1 ▸ List.mem_cons_self y r2
          · exact List.mem_cons_of_mem y (hkeep x h1 hne)

lemma findMatch_append_first (amt : ℚ) (d : ChaseDeposit) (hd : d.amount = amt) :
    ∀ (ds₁ ds₂ : List ChaseDeposit), (∀ x ∈ ds₁, x.amount ≠ amt) →
      findMatch amt (ds₁ ++ d :: ds₂) = some (d, ds₁ ++ ds₂) := by
  intro ds₁
  induction ds₁ with
  | nil => intro ds₂ _; simp [findMatch, hd]
  | cons y ys ih =>
    intro ds₂ hall
    have hy : y.amount ≠ amt := hall y (List.mem_cons_self y ys)
    rw [List.cons_append, findMatch, if_neg hy,
      ih ds₂ (fun x hx => hall x (List.mem_cons_of_mem y hx))]
    rfl

lemma matchLoop_length (now : Int) :
    ∀ (rows : List EmailRow) (ds : List ChaseDeposit),
      (matchLoop now rows ds).1.length = rows.length := by
  intro rows
  induction rows with
  | nil => intro ds; rfl
  | cons r rs ih =>
    intro ds
    cases h1 : rowInProgress now r with
    | false => rw [matchLoop_cons_notinprog now r rs ds h1]; simp [ih]
    | true =>
      rcases h2 : findMatch (parseFloatOr0 r.amount) ds with _ | ⟨d, ds'⟩
      · rw [matchLoop_cons_inprog_none now r rs ds h1 h2]; simp [ih]
      · rw [matchLoop_cons_inprog_some now r rs ds ds' d h1 h2]; simp [ih]

lemma matchLoop_writes_deposits (now : Int) :
    ∀ (rows : List EmailRow) (ds : List ChaseDeposit),
      (matchLoop now rows ds).2.2 + (matchLoop now rows ds).2.1.length = ds.length := by
  intro rows
  induction rows with
  | nil => intro ds; simp [matchLoop_nil]
  | cons r rs ih =>
    intro ds
    cases h1 : rowInProgress now r with
    | false => rw [matchLoop_cons_notinprog now r rs ds h1]; exact ih ds
    | true =>
      rcases h2 : findMatch (parseFloatOr0 r.amount) ds with _ | ⟨d, ds'⟩
      · rw [matchLoop_cons_inprog_none now r rs ds h1 h2]; exact ih ds
      · rw [matchLoop_cons_inprog_some now r rs ds ds' d h1 h2]
        have hlen := (findMatch_some_spec _ ds ds' d h2).2.2.1
        have := ih ds'
        dsimp only
        omega

lemma matchLoop_rewrite_spec (now : Int) :
    ∀ (rows : List EmailRow) (ds : List ChaseDeposit),
      List.Forall₂ (fun r r' => r' = r ∨
        (rowInProgress now r = true ∧ ∃ d ∈ ds, d.amount = parseFloatOr0 r.amount ∧
          r' = { r with estimatedArrival := some d.receivedAt }))
        rows (matchLoop now rows ds).1 := by
  intro rows
  induction rows with
  | nil => intro ds; exact List.Forall₂.nil
  | cons r rs ih =>
    intro ds
    cases h1 : rowInProgress now r with
    | false =>
      rw [matchLoop_cons_notinprog now r rs ds h1]
      exact List.Forall₂.cons (Or.inl rfl) (ih ds)
    | true =>
      rcases h2 : findMatch (parseFloatOr0 r.amount) ds with _ | ⟨d, ds'⟩
      · rw [matchLoop_cons_inprog_none now r rs ds h1 h2]
        exact List.Forall₂.cons (Or.inl rfl) (ih ds)
      · rw [matchLoop_cons_inprog_some now r rs ds ds' d h1 h2]
        obtain ⟨ha, hmem, _, hsub, _⟩ := findMatch_some_spec _ ds ds' d h2
        refine List.Forall₂.cons (Or.inr ⟨h1, d, hmem, ha, rfl⟩) ?_
        refine (ih ds').imp ?_
        intro a b hab
        rcases hab with hab | ⟨hp, d', hd', hamt, hb⟩
        · exact Or.inl hab
        · exact Or.inr ⟨hp, d', hsub d' hd', hamt, hb⟩

lemma matchLoop_writes_pos (now : Int) :
    ∀ (rows : List EmailRow) (ds : List ChaseDeposit),
      (∃ r ∈ rows, rowInProgress now r = true ∧
        ∃ d ∈ ds, d.amount = parseFloatOr0 r.amount) →
      1 ≤ (matchLoop now rows ds).2.2 := by
  intro rows
  induction rows with
  | nil => intro ds h; simp at h
  | cons r rs ih =>
    intro ds ⟨w, hw, hwp, d, hd, hamt⟩
    cases h1 : rowInProgress now r with
    | false =>
      rw [matchLoop_cons_notinprog now r rs ds h1]
      rcases List.mem_cons.mp hw with h | h
      · rw [h] at hwp; rw [hwp] at h1; exact absurd h1 (by simp)
      · exact ih ds ⟨w, h, hwp, d, hd, hamt⟩
    | true =>
      rcases h2 : findMatch (parseFloatOr0 r.amount) ds with _ | ⟨d', ds'⟩
      · rw [matchLoop_cons_inprog_none now r rs ds h1 h2]
        rcases List.mem_cons.mp hw with h | h
        · subst h
          exact absurd hamt ((findMatch_eq_none_iff _ ds).mp h2 d hd)
        · exact ih ds ⟨w, h, hwp, d, hd, hamt⟩
      · rw [matchLoop_cons_inprog_some now r rs ds ds' d' h1 h2]
        simp

lemma matchLoop_noop (now : Int) :
    ∀ (rows : List EmailRow) (ds : List ChaseDeposit),
      (∀ r ∈ rows, rowInProgress now r = true →
        ∀ d ∈ ds, d.amount ≠ parseFloatOr0 r.amount) →
      matchLoop now rows ds = (rows, ds, 0) := by
  intro rows
  induction rows with
  | nil => intro ds _; rfl
  | cons r rs ih =>
    intro ds hall
    cases h1 : rowInProgress now r with
    | false =>
      rw [matchLoop_cons_notinprog now r rs ds h1,
        ih ds (fun x hx => hall x (List.mem_cons_of_mem r hx))]
    | true =>
      have h2 : findMatch (parseFloatOr0 r.amount) ds = none :=
        (findMatch_eq_none_iff _ ds).mpr (hall r (List.mem_cons_self r rs) h1)
      rw [matchLoop_cons_inprog_none now r rs ds h1 h2,
        ih ds (fun x hx => hall x (List.mem_cons_of_mem r hx))]

lemma rowInProgress_false_of_settled (now : Int) (r : EmailRow)
    (h : ∀ a, r.estimatedArrival = some a → a ≤ now) :
    rowInProgress now r = false := by
  unfold rowInProgress
  rcases ha : r.estimatedArrival with _ | a
  · simp
  · have := h a ha
    simp [not_lt.mpr this]

lemma matchLoop_settled_unchanged (now : Int) :
    ∀ (rows : List EmailRow) (ds : List ChaseDeposit) (i : ℕ) (r : EmailRow),
      rows[i]? = some r → rowInProgress now r = false →
      ((matchLoop now rows ds).1)[i]? = some r := by
  intro rows
  induction rows with
  | nil => intro ds i r hi; simp at hi
  | cons x xs ih =>
    intro ds i r hi hp
    rcases i with _ | j
    · simp only [List.getElem?_cons_zero, Option.some.injEq] at hi
      subst hi
      cases h1 : rowInProgress now x with
      | false => rw [matchLoop_cons_notinprog now x xs ds h1]; simp
      | true => rw [h1] at hp; exact absurd hp (by simp)
    · simp only [List.getElem?_cons_succ] at hi
      cases h1 : rowInProgress now x with
      | false =>
        rw [matchLoop_cons_notinprog now x xs ds h1]
        simpa using ih ds j r hi hp
      | true =>
        rcases h2 : findMatch (parseFloatOr0 x.amount) ds with _ | ⟨d, ds'⟩
        · rw [matchLoop_cons_inprog_none now x xs ds h1 h2]
          simpa using ih ds j r hi hp
        · rw [matchLoop_cons_inprog_some now x xs ds ds' d h1 h2]
          simpa using ih ds' j r hi hp

/-- C5: a `paypal_transfer` row whose `estimatedArrival` is absent or
not strictly in the future is never matched by the Deposit Matcher: the
row survives every run unchanged (so its `estimatedArrival` is never
rewritten), for every deposit batch. -/
theorem c5_no_rematch_of_settled (now : Int) (rows : List EmailRow)
    (ds : List ChaseDeposit) (i : ℕ) (r : EmailRow)
    (hi : rows[i]? = some r) (hsrc : r.source = "paypal_transfer")
    (harr : ∀ a, r.estimatedArrival = some a → a ≤ now) :
    ((matchChaseDepositsToTransfers now rows ds).1)[i]? = some r := by
  unfold matchChaseDepositsToTransfers
  cases hempty : ds.isEmpty
  · simp only [Bool.false_eq_true, if_false]
    exact matchLoop_settled_unchanged now rows ds i r hi
      (rowInProgress_false_of_settled now r harr)
  · simp only [if_true]
    exact hi

/-- C5 witness: a settled transfer (arrival in the past) with an
equal-amount deposit available is left unchanged. -/
theorem c5_no_rematch_of_settled_witness :
    ((matchChaseDepositsToTransfers 0
      [⟨"paypal_transfer", some 100, some (-5)⟩] [⟨100, -7⟩]).1)[0]? =
      some ⟨"paypal_transfer", some 100, some (-5)⟩ :=
  c5_no_rematch_of_settled 0 _ _ 0 _ rfl rfl
    (by intro a ha; simp only [Option.some.injEq] at ha; omega)

/-- C2 counterexample: an in-progress transfer of amount 100 and a
deposit of amount 100.005 differ by 0.005 ≤ 0.01, so the claimed
epsilon-matching would match them and rewrite the transfer's
estimatedArrival; the code compares with `indexOf` (exact equality)
and performs no match: the row is unchanged, the deposit is left over,
and zero mutations happen. -/
theorem c2_epsilon_matching_counterexample :
    (matchChaseDepositsToTransfers 0
        [⟨"paypal_transfer", some 100, some 10⟩] [⟨20001/200, 5⟩]) =
      ([⟨"paypal_transfer", some 100, some 10⟩], [⟨20001/200, 5⟩], 0) ∧
    |(20001/200 : ℚ) - 100| ≤ 1/100 ∧ (20001/200 : ℚ) ≠ 100 ∧ (0 : Int) < 10 := by
  refine ⟨?_, by norm_num [abs_le], by norm_num, by norm_num⟩
  norm_num [matchChaseDepositsToTransfers, matchLoop, rowInProgress, findMatch, parseFloatOr0,
    List.isEmpty]

/-- C2 amended: the Deposit Matcher matches on exact equality of the
deposit amount and the parsed transfer amount (not within an epsilon).
For every batch: the rows keep their length; each mutation consumes
exactly one deposit (at most one match per deposit); every row is
either unchanged or is an in-progress transfer rewritten to the
receivedAt of a deposit of exactly equal amount; whenever some
in-progress transfer's amount equals some deposit's amount at least one
mutation happens; and for a single in-progress transfer the first
equal-amount deposit in batch order wins. -/
theorem c2_exact_greedy_matching_amended :
    (∀ (now : Int) (rows : List EmailRow) (ds : List ChaseDeposit),
      (matchChaseDepositsToTransfers now rows ds).1.length = rows.length ∧
      (matchChaseDepositsToTransfers now rows ds).2.2 +
        (matchChaseDepositsToTransfers now rows ds).2.1.length = ds.length ∧
      List.Forall₂ (fun r r' => r' = r ∨
        (rowInProgress now r = true ∧ ∃ d ∈ ds, d.amount = parseFloatOr0 r.amount ∧
          r' = { r with estimatedArrival := some d.receivedAt }))
        rows (matchChaseDepositsToTransfers now rows ds).1 ∧
      ((∃ r ∈ rows, rowInProgress now r = true ∧
          ∃ d ∈ ds, d.amount = parseFloatOr0 r.amount) →
        1 ≤ (matchChaseDepositsToTransfers now rows ds).2.2)) ∧
    (∀ (now : Int) (r : EmailRow) (ds₁ ds₂ : List ChaseDeposit) (d : ChaseDeposit),
      rowInProgress now r = true → d.amount = parseFloatOr0 r.amount →
      (∀ x ∈ ds₁, x.amount ≠ parseFloatOr0 r.amount) →
      matchChaseDepositsToTransfers now [r] (ds₁ ++ d :: ds₂) =
        ([{ r with estimatedArrival := some d.receivedAt }], ds₁ ++ ds₂, 1)) := by
  constructor
  · intro now rows ds
    cases hempty : ds.isEmpty with
    | true =>
      have hds : ds = [] := List.isEmpty_iff.mp hempty
      subst hds
      simp only [matchChaseDepositsToTransfers, List.isEmpty_nil, if_true]
      refine ⟨by simp, by simp, ?_, ?_⟩
      · exact List.forall₂_same.mpr (fun x _ => Or.inl rfl)
      · rintro ⟨r, _, _, d, hd, _⟩
        simp at hd
    | false =>
      simp only [matchChaseDepositsToTransfers, hempty, Bool.false_eq_true, if_false]
      exact ⟨matchLoop_length now rows ds, matchLoop_writes_deposits now rows ds,
        matchLoop_rewrite_spec now rows ds, matchLoop_writes_pos now rows ds⟩
  · intro now r ds₁ ds₂ d hp hamt hfirst
    have hne : (ds₁ ++ d :: ds₂).isEmpty = false := by
      cases ds₁ <;> simp
    simp only [matchChaseDepositsToTransfers, hne, Bool.false_eq_true, if_false]
    rw [matchLoop_cons_inprog_some now r [] (ds₁ ++ d :: ds₂) (ds₁ ++ ds₂) d hp
      (findMatch_append_first _ d hamt ds₁ ds₂ hfirst), matchLoop_nil]

/-- C2 witness: for a single in-progress transfer of amount 100 and a
batch with first a non-matching deposit (amount 55) then two matching
deposits, the first matching deposit (receivedAt = 3) wins, it is
consumed, and exactly one mutation happens. -/
theorem c2_exact_greedy_matching_amended_witness :
    matchChaseDepositsToTransfers 0 [⟨"paypal_transfer", some 100, some 10⟩]
        ([⟨55, 2⟩] ++ (⟨100, 3⟩ : ChaseDeposit) :: [⟨100, 4⟩]) =
      ([⟨"paypal_transfer", some 100, some 3⟩], [⟨55, 2⟩] ++ [⟨100, 4⟩], 1) :=
  c2_exact_greedy_matching_amended.2 0 ⟨"paypal_transfer", some 100, some 10⟩
    [⟨55, 2⟩] [⟨100, 4⟩] ⟨100, 3⟩ (by decide)
    (by simp [parseFloatOr0]) (by simp [parseFloatOr0])

lemma matchLoop_no_rematch (now : Int) :
    ∀ (rows : List EmailRow) (ds dsAll : List ChaseDeposit),
      (∀ d ∈ ds, d.receivedAt ≤ now) →
      (rows.filter (rowInProgress now)).Pairwise
        (fun a b => parseFloatOr0 a.amount ≠ parseFloatOr0 b.amount) →
      (∀ r ∈ rows, rowInProgress now r = true →
        (∃ d ∈ dsAll, d.amount = parseFloatOr0 r.amount) →
        (∃ d ∈ ds, d.amount = parseFloatOr0 r.amount)) →
      ∀ r' ∈ (matchLoop now rows ds).1, rowInProgress now r' = true →
        ∀ d ∈ dsAll, d.amount ≠ parseFloatOr0 r'.amount := by
  intro rows
  induction rows with
  | nil => intro ds dsAll _ _ _ r' hr'; simp [matchLoop_nil] at hr'
  | cons x xs ih =>
    intro ds dsAll hdep hdist hatm r' hr' hp' d0 hd0 heq
    cases h1 : rowInProgress now x with
    | false =>
      rw [matchLoop_cons_notinprog now x xs ds h1] at hr'
      rcases List.mem_cons.mp hr' with h | h
      · subst h; rw [hp'] at h1; exact absurd h1 (by simp)
      · have hdist' : (xs.filter (rowInProgress now)).Pairwise
            (fun a b => parseFloatOr0 a.amount ≠ parseFloatOr0 b.amount) := by
          rwa [List.filter_cons_of_neg (by simp [h1])] at hdist
        exact ih ds dsAll hdep hdist'
          (fun r hr hpr => hatm r (List.mem_cons_of_mem x hr) hpr)
          r' h hp' d0 hd0 heq
    | true =>
      have hfilter : (x :: xs).filter (rowInProgress now) =
          x :: xs.filter (rowInProgress now) := List.filter_cons_of_pos h1
      rw [hfilter, List.pairwise_cons] at hdist
      rcases h2 : findMatch (parseFloatOr0 x.amount) ds with _ | ⟨d, ds'⟩
      · rw [matchLoop_cons_inprog_none now x xs ds h1 h2] at hr'
        have hnone := (findMatch_eq_none_iff _ ds).mp h2
        rcases List.mem_cons.mp hr' with h | h
        · subst h
          obtain ⟨dw, hdw, hdweq⟩ := hatm r' (List.mem_cons_self _ _) hp' ⟨d0, hd0, heq⟩
          exact hnone dw hdw hdweq
        · exact ih ds dsAll hdep hdist.2
            (fun r hr hpr => hatm r (List.mem_cons_of_mem x hr) hpr)
            r' h hp' d0 hd0 heq
      · obtain ⟨ha, hmem, _, hsub, hkeep⟩ := findMatch_some_spec _ ds ds' d h2
        rw [matchLoop_cons_inprog_some now x xs ds ds' d h1 h2] at hr'
        rcases List.mem_cons.mp hr' with h | h
        · subst h
          have : rowInProgress now { x with estimatedArrival := some d.receivedAt } = false :=
            rowInProgress_false_of_settled now _ (by
              intro a haeq
              simp only [Option.some.injEq] at haeq
              exact haeq ▸ hdep d hmem)
          rw [hp'] at this
          exact absurd this (by simp)
        · refine ih ds' dsAll (fun y hy => hdep y (hsub y hy)) hdist.2 ?_ r' h hp' d0 hd0 heq
          intro t ht hpt hex
          obtain ⟨d₀, hd₀, hd₀eq⟩ := hatm t (List.mem_cons_of_mem x ht) hpt hex
          have htf : t ∈ xs.filter (rowInProgress now) := List.mem_filter.mpr ⟨ht, hpt⟩
          have hne : parseFloatOr0 x.amount ≠ parseFloatOr0 t.amount := hdist.1 t htf
          refine ⟨d₀, hkeep d₀ hd₀ ?_, hd₀eq⟩
          rw [hd₀eq]
          exact fun hcon => hne hcon.symm

/-- C4 counterexample: two in-progress transfers of equal amount 100
(arrivals 10 and 20) and one deposit of amount 100 received at 5, with
now = 6.  The first run rewrites the first transfer's arrival to 5.
Re-running the matcher on the resulting state with the same deposit
batch rewrites the second transfer too: the second run performs one
mutation, so the matcher is not idempotent as claimed. -/
theorem c4_idempotence_counterexample :
    (matchChaseDepositsToTransfers 6
      (matchChaseDepositsToTransfers 6
        [⟨"paypal_transfer", some 100, some 10⟩, ⟨"paypal_transfer", some 100, some 20⟩]
        [⟨100, 5⟩]).1
      [⟨100, 5⟩]).2.2 = 1 := by
  norm_num [matchChaseDepositsToTransfers, matchLoop, rowInProgress, findMatch,
    parseFloatOr0, List.isEmpty]

/-- C4 amended: the Deposit Matcher is idempotent provided every
deposit in the batch was received at or before `now` and no two
in-progress transfers share a parsed amount: a second run on the state
produced by the first run, with the same deposit batch, performs zero
mutations. -/
theorem c4_idempotence_amended (now : Int) (rows : List EmailRow)
    (ds : List ChaseDeposit)
    (hdep : ∀ d ∈ ds, d.receivedAt ≤ now)
    (hdist : (rows.filter (rowInProgress now)).Pairwise
      (fun a b => parseFloatOr0 a.amount ≠ parseFloatOr0 b.amount)) :
    (matchChaseDepositsToTransfers now
      (matchChaseDepositsToTransfers now rows ds).1 ds).2.2 = 0 := by
  cases hempty : ds.isEmpty with
  | true =>
    simp only [matchChaseDepositsToTransfers, hempty, if_true]
  | false =>
    simp only [matchChaseDepositsToTransfers, hempty, Bool.false_eq_true, if_false]
    have hnr := matchLoop_no_rematch now rows ds ds hdep hdist (fun _ _ _ h => h)
    rw [matchLoop_noop now (matchLoop now rows ds).1 ds
      (fun r hr hpr d hd => hnr r hr hpr d hd)]

/-- C4 witness: with two in-progress transfers of distinct amounts
(100 and 200) and a past-dated deposit of amount 100, the second run
performs no mutation. -/
theorem c4_idempotence_amended_witness :
    (matchChaseDepositsToTransfers 6
      (matchChaseDepositsToTransfers 6
        [⟨"paypal_transfer", some 100, some 10⟩, ⟨"paypal_transfer", some 200, some 20⟩]
        [⟨100, 5⟩]).1
      [⟨100, 5⟩]).2.2 = 0 :=
  c4_idempotence_amended 6
    [⟨"paypal_transfer", some 100, some 10⟩, ⟨"paypal_transfer", some 200, some 20⟩]
    [⟨100, 5⟩]
    (by intro d hd; simp only [List.mem_singleton] at hd; rw [hd]; decide)
    (by
      norm_num [List.filter, rowInProgress, List.pairwise_cons, parseFloatOr0])

lemma addBusinessDays_zero (d : Nat) : addBusinessDays d 0 = d := by
  rw [addBusinessDays]
  simp

lemma addBusinessDays_weekend_step (d n : Nat) (hn : n ≠ 0) (hw : isWeekday (d + 1) = false) :
    addBusinessDays d n = addBusinessDays (d + 1) n := by
  rw [addBusinessDays]
  simp [hn, hw]

lemma addBusinessDays_weekday_step (d n : Nat) (hn : n ≠ 0) (hw : isWeekday (d + 1) = true) :
    addBusinessDays d n = addBusinessDays (d + 1) (n - 1) := by
  rw [addBusinessDays]
  simp [hn, hw]

lemma addBusinessDays_le (d n : Nat) : d ≤ addBusinessDays d n := by
  induction d, n using addBusinessDays.induct with
  | case1 d => simp [addBusinessDays_zero]
  | case2 d days hne d' hwk ih =>
    have hd : d' = d + 1 := rfl
    rw [hd] at ih
    rw [addBusinessDays_weekday_step d days hne hwk]
    omega
  | case3 d days hne d' hwk ih =>
    have hd : d' = d + 1 := rfl
    rw [hd] at ih
    rw [addBusinessDays_weekend_step d days hne (by simpa using hwk)]
    omega

lemma addBusinessDays_isWeekday : ∀ d n : Nat, 1 ≤ n →
    isWeekday (addBusinessDays d n) = true := by
  intro d n
  induction d, n using addBusinessDays.induct with
  | case1 d => intro h; exact absurd h (by omega)
  | case2 d days hne d' hwk ih =>
    intro _
    have hd : d' = d + 1 := rfl
    rw [hd] at ih
    rw [addBusinessDays_weekday_step d days hne hwk]
    by_cases h1 : days = 1
    · subst h1
      rw [show (1 : Nat) - 1 = 0 from rfl, addBusinessDays_zero]
      exact hwk
    · exact ih (by omega)
  | case3 d days hne d' hwk ih =>
    intro _
    have hd : d' = d + 1 := rfl
    rw [hd] at ih
    rw [addBusinessDays_weekend_step d days hne (by simpa using hwk)]
    exact ih (by omega)

lemma countWeekdays_self (d : Nat) : countWeekdays d d = 0 := by
  simp [countWeekdays]

lemma countWeekdays_succ_left (d e : Nat) (h : d < e) :
    countWeekdays d e = (if isWeekday (d + 1) then 1 else 0) + countWeekdays (d + 1) e := by
  unfold countWeekdays
  rw [show e - d = (e - (d + 1)) + 1 from by omega, List.range'_succ, List.filter_cons]
  cases hw : isWeekday (d + 1) <;> simp [hw] <;> omega

lemma countWeekdays_addBusinessDays : ∀ d n : Nat,
    countWeekdays d (addBusinessDays d n) = n := by
  intro d n
  induction d, n using addBusinessDays.induct with
  | case1 d => rw [addBusinessDays_zero]; exact countWeekdays_self d
  | case2 d days hne d' hwk ih =>
    have hd : d' = d + 1 := rfl
    rw [hd] at ih
    rw [addBusinessDays_weekday_step d days hne hwk]
    have hle := addBusinessDays_le (d + 1) (days - 1)
    rw [countWeekdays_succ_left d _ (by omega), if_pos hwk, ih]
    omega
  | case3 d days hne d' hwk ih =>
    have hd : d' = d + 1 := rfl
    rw [hd] at ih
    have hwk' : isWeekday (d + 1) = false := by simpa using hwk
    rw [addBusinessDays_weekend_step d days hne hwk']
    have hle := addBusinessDays_le (d + 1) days
    rw [countWeekdays_succ_left d _ (by omega), hwk', ih]
    simp

lemma addBusinessDays_friday (d : Nat) (hd : d % 7 = 5) : addBusinessDays d 1 = d + 3 := by
  have w1 : isWeekday (d + 1) = false := by simp [isWeekday]; omega
  have w2 : isWeekday (d + 1 + 1) = false := by simp [isWeekday]; omega
  have w3 : isWeekday (d + 2 + 1) = true := by simp [isWeekday]; omega
  rw [addBusinessDays_weekend_step d 1 (by omega) w1]
  rw [addBusinessDays_weekend_step (d + 1) 1 (by omega) w2]
  show addBusinessDays (d + 2) 1 = d + 3
  rw [addBusinessDays_weekday_step (d + 2) 1 (by omega) w3]
  exact addBusinessDays_zero (d + 3)

lemma addBusinessDays_monday (d : Nat) (hd : d % 7 = 1) : addBusinessDays d 3 = d + 3 := by
  have w1 : isWeekday (d + 1) = true := by simp [isWeekday]; omega
  have w2 : isWeekday (d + 1 + 1) = true := by simp [isWeekday]; omega
  have w3 : isWeekday (d + 2 + 1) = true := by simp [isWeekday]; omega
  rw [addBusinessDays_weekday_step d 3 (by omega) w1]
  show addBusinessDays (d + 1) 2 = d + 3
  rw [addBusinessDays_weekday_step (d + 1) 2 (by omega) w2]
  show addBusinessDays (d + 2) 1 = d + 3
  rw [addBusinessDays_weekday_step (d + 2) 1 (by omega) w3]
  exact addBusinessDays_zero (d + 3)

/-- C7: `addBusinessDays` advances one calendar day at a time counting
only non-weekend days, never counting the start date: for `n ≥ 1` the
result is a weekday strictly after the start; the half-open interval
from the start (excluded) to the result (included) contains exactly `n`
weekdays; and concretely a Friday plus 1 business day is the following
Monday, and a Monday plus 3 business days is the same week's
Thursday. -/
theorem c7_addBusinessDays_spec :
    (∀ d n : Nat, 1 ≤ n →
      d < addBusinessDays d n ∧ isWeekday (addBusinessDays d n) = true) ∧
    (∀ d n : Nat, countWeekdays d (addBusinessDays d n) = n) ∧
    (∀ d : Nat, d % 7 = 5 → addBusinessDays d 1 = d + 3 ∧ (d + 3) % 7 = 1) ∧
    (∀ d : Nat, d % 7 = 1 → addBusinessDays d 3 = d + 3 ∧ (d + 3) % 7 = 4) := by
  refine ⟨?_, countWeekdays_addBusinessDays, ?_, ?_⟩
  · intro d n hn
    refine ⟨?_, addBusinessDays_isWeekday d n hn⟩
    cases hw : isWeekday (d + 1) with
    | true =>
      rw [addBusinessDays_weekday_step d n (by omega) hw]
      have := addBusinessDays_le (d + 1) (n - 1)
      omega
    | false =>
      rw [addBusinessDays_weekend_step d n (by omega) hw]
      have := addBusinessDays_le (d + 1) n
      omega
  · intro d hd
    exact ⟨addBusinessDays_friday d hd, by omega⟩
  · intro d hd
    exact ⟨addBusinessDays_monday d hd, by omega⟩

theorem c7_addBusinessDays_spec_witness :
    addBusinessDays 5 1 = 8 ∧ (8 : Nat) % 7 = 1 ∧
    addBusinessDays 1 3 = 4 ∧ (4 : Nat) % 7 = 4 ∧
    5 < addBusinessDays 5 1 ∧ countWeekdays 5 (addBusinessDays 5 1) = 1 :=
  ⟨(c7_addBusinessDays_spec.2.2.1 5 (by decide)).1, by decide,
   (c7_addBusinessDays_spec.2.2.2 1 (by decide)).1, by decide,
   (c7_addBusinessDays_spec.1 5 1 (by decide)).1,
   c7_addBusinessDays_spec.2.1 5 1⟩
